import Mathlib

/-!
Verification of the hadoop-ds-workshop notebooks.

The repository is a set of Python 2 Spark tutorial notebooks.  We embed the
notebook-level code (the functions defined in the cells and the concrete
pipelines they run) as Lean definitions and prove the checkable facts of the
specification about them.  External pieces (the Spark RDD engine, the
fizzbuzz.csv data file, Python builtin semantics) are not part of the
repository sources; where a claim depends on them they are modelled from the
spec, and each such definition says so in its doc comment.
-/

namespace Workshop

/-- Modelled from the spec: the fizzbuzz.csv data file is not part of the
repository sources.  The spec describes it as a toy generated dataset
pairing each integer with its rule-derived FizzBuzz label, and the solution
notebook displays its first 20 rows.  The label of `n` is "FizzBuzz" when
`n` is divisible by 3 and 5, "Fizz" when divisible by 3 only, "Buzz" when
divisible by 5 only, and the decimal representation of `n` otherwise. -/
def fizzbuzz (n : Nat) : String :=
  if n % 3 == 0 && n % 5 == 0 then "FizzBuzz"
  else if n % 3 == 0 then "Fizz"
  else if n % 5 == 0 then "Buzz"
  else Nat.repr n

/-- From `02-Apache-Spark-solution.ipynb`: maps a fizzbuzz label to its
histogram class, collapsing all numeric outputs to the class "Number". -/
def fizzbuzz_key (fb : String) : String :=
  if fb == "Fizz" || fb == "Buzz" || fb == "FizzBuzz" then fb else "Number"

/-- One row of the fizzbuzz dataset: the number paired with its label. -/
def fizzbuzzRow (n : Nat) : Nat × String := (n, fizzbuzz n)

/-- Modelled from the spec: the first `N` rows of the fizzbuzz dataset,
pairing the integers `1 .. N` with their labels.  The solution notebook
loads 200000 such rows from fizzbuzz.csv. -/
def fizzbuzzDataset (N : Nat) : List (Nat × String) :=
  (List.range N).map (fun i => fizzbuzzRow (i + 1))

/-- The histogram keys of the first `N` dataset rows, as computed by the
solution notebook pipeline `parsed.map(lambda (n, fb): (fizzbuzz_key(fb), 1))`. -/
def labelKeys (N : Nat) : List String :=
  (fizzbuzzDataset N).map (fun p => fizzbuzz_key p.2)

/-- Occurrences of the key `k` in a list of keys. -/
def countKey (k : String) (l : List String) : Nat :=
  l.countP (fun s => s == k)

/- ### Decimal representations consist of digit characters -/

lemma digitChar_isDigit : ∀ m, m < 10 → (Nat.digitChar m).isDigit = true := by
  decide

lemma toDigitsCore_digits (fuel : Nat) :
    ∀ (n : Nat) (ds : List Char), (∀ c ∈ ds, c.isDigit = true) →
      ∀ c ∈ Nat.toDigitsCore 10 fuel n ds, c.isDigit = true := by
  induction fuel with
  | zero =>
    intro n ds hds c hc
    exact hds c hc
  | succ fuel ih =>
    intro n ds hds c hc
    have hd : (Nat.digitChar (n % 10)).isDigit = true :=
      digitChar_isDigit _ (Nat.mod_lt _ (by decide))
    have hcons : ∀ c ∈ (Nat.digitChar (n % 10) :: ds), c.isDigit = true := by
      intro c hc
      rcases List.mem_cons.mp hc with h | h
      · exact h ▸ hd
      · exact hds c h
    simp only [Nat.toDigitsCore] at hc
    split at hc
    · exact hcons c hc
    · exact ih (n / 10) _ hcons c hc

lemma repr_all_digits (n : Nat) : ∀ c ∈ (Nat.repr n).toList, c.isDigit = true := by
  have h : (Nat.repr n).toList = Nat.toDigits 10 n := rfl
  rw [h]
  exact toDigitsCore_digits (n + 1) n [] (by intro c hc; cases hc)

lemma repr_ne_fizz (n : Nat) : Nat.repr n ≠ "Fizz" := by
  intro h
  have hF : ('F' : Char) ∈ (Nat.repr n).toList := by
    rw [h]; decide
  have := repr_all_digits n 'F' hF
  exact absurd this (by decide)

lemma repr_ne_buzz (n : Nat) : Nat.repr n ≠ "Buzz" := by
  intro h
  have hB : ('B' : Char) ∈ (Nat.repr n).toList := by
    rw [h]; decide
  have := repr_all_digits n 'B' hB
  exact absurd this (by decide)

lemma repr_ne_fizzbuzz (n : Nat) : Nat.repr n ≠ "FizzBuzz" := by
  intro h
  have hF : ('F' : Char) ∈ (Nat.repr n).toList := by
    rw [h]; decide
  have := repr_all_digits n 'F' hF
  exact absurd this (by decide)

/- ### The histogram class of each row -/

lemma key_of_number (n : Nat) (h3 : n % 3 ≠ 0) (h5 : n % 5 ≠ 0) :
    fizzbuzz_key (fizzbuzz n) = "Number" := by
  have hfb : fizzbuzz n = Nat.repr n := by
    simp [fizzbuzz, h3, h5]
  rw [hfb, fizzbuzz_key]
  have h1 : (Nat.repr n == "Fizz") = false := by
    simpa using repr_ne_fizz n
  have h2 : (Nat.repr n == "Buzz") = false := by
    simpa using repr_ne_buzz n
  have h3 : (Nat.repr n == "FizzBuzz") = false := by
    simpa using repr_ne_fizzbuzz n
  simp [h1, h2, h3]

lemma key_of_fizz (n : Nat) (h3 : n % 3 = 0) (h5 : n % 5 ≠ 0) :
    fizzbuzz_key (fizzbuzz n) = "Fizz" := by
  have hfb : fizzbuzz n = "Fizz" := by
    simp [fizzbuzz, h3, h5]
  rw [hfb]
  rfl

lemma key_of_buzz (n : Nat) (h3 : n % 3 ≠ 0) (h5 : n % 5 = 0) :
    fizzbuzz_key (fizzbuzz n) = "Buzz" := by
  have hfb : fizzbuzz n = "Buzz" := by
    simp [fizzbuzz, h3, h5]
  rw [hfb]
  rfl

lemma key_of_fizzbuzz (n : Nat) (h3 : n % 3 = 0) (h5 : n % 5 = 0) :
    fizzbuzz_key (fizzbuzz n) = "FizzBuzz" := by
  have hfb : fizzbuzz n = "FizzBuzz" := by
    simp [fizzbuzz, h3, h5]
  rw [hfb]
  rfl

/- ### Counting the histogram classes over the first N rows -/

lemma labelKeys_succ (N : Nat) :
    labelKeys (N + 1) = labelKeys N ++ [fizzbuzz_key (fizzbuzz (N + 1))] := by
  simp [labelKeys, fizzbuzzDataset, fizzbuzzRow, List.range_succ]

lemma countKey_append (k : String) (l₁ l₂ : List String) :
    countKey k (l₁ ++ l₂) = countKey k l₁ + countKey k l₂ := by
  simp [countKey, List.countP_append]

lemma count_fizzbuzz_class (N : Nat) :
    countKey "FizzBuzz" (labelKeys N) = N / 15 := by
  induction N with
  | zero => rfl
  | succ N ih =>
    rw [labelKeys_succ, countKey_append, ih, Nat.succ_div]
    by_cases h3 : (N + 1) % 3 = 0 <;> by_cases h5 : (N + 1) % 5 = 0
    · rw [key_of_fizzbuzz _ h3 h5]
      have h15 : 15 ∣ N + 1 := by omega
      simp [countKey, h15]
    · rw [key_of_fizz _ h3 h5]
      have h15 : ¬ 15 ∣ N + 1 := by omega
      simp [countKey, h15]
    · rw [key_of_buzz _ h3 h5]
      have h15 : ¬ 15 ∣ N + 1 := by omega
      simp [countKey, h15]
    · rw [key_of_number _ h3 h5]
      have h15 : ¬ 15 ∣ N + 1 := by omega
      simp [countKey, h15]

lemma count_fizz_class (N : Nat) :
    countKey "Fizz" (labelKeys N) + N / 15 = N / 3 := by
  induction N with
  | zero => rfl
  | succ N ih =>
    rw [labelKeys_succ, countKey_append, Nat.succ_div, Nat.succ_div]
    by_cases h3 : (N + 1) % 3 = 0 <;> by_cases h5 : (N + 1) % 5 = 0
    · rw [key_of_fizzbuzz _ h3 h5]
      have h15 : 15 ∣ N + 1 := by omega
      have hd3 : 3 ∣ N + 1 := by omega
      simp only [countKey] at ih ⊢
      simp [h15, hd3]
      omega
    · rw [key_of_fizz _ h3 h5]
      have h15 : ¬ 15 ∣ N + 1 := by omega
      have hd3 : 3 ∣ N + 1 := by omega
      simp only [countKey] at ih ⊢
      simp [h15, hd3]
      omega
    · rw [key_of_buzz _ h3 h5]
      have h15 : ¬ 15 ∣ N + 1 := by omega
      have hd3 : ¬ 3 ∣ N + 1 := by omega
      simp only [countKey] at ih ⊢
      simp [h15, hd3]
      omega
    · rw [key_of_number _ h3 h5]
      have h15 : ¬ 15 ∣ N + 1 := by omega
      have hd3 : ¬ 3 ∣ N + 1 := by omega
      simp only [countKey] at ih ⊢
      simp [h15, hd3]
      omega

lemma count_buzz_class (N : Nat) :
    countKey "Buzz" (labelKeys N) + N / 15 = N / 5 := by
  induction N with
  | zero => rfl
  | succ N ih =>
    rw [labelKeys_succ, countKey_append, Nat.succ_div, Nat.succ_div]
    by_cases h3 : (N + 1) % 3 = 0 <;> by_cases h5 : (N + 1) % 5 = 0
    · rw [key_of_fizzbuzz _ h3 h5]
      have h15 : 15 ∣ N + 1 := by omega
      have hd5 : 5 ∣ N + 1 := by omega
      simp only [countKey] at ih ⊢
      simp [h15, hd5]
      omega
    · rw [key_of_fizz _ h3 h5]
      have h15 : ¬ 15 ∣ N + 1 := by omega
      have hd5 : ¬ 5 ∣ N + 1 := by omega
      simp only [countKey] at ih ⊢
      simp [h15, hd5]
      omega
    · rw [key_of_buzz _ h3 h5]
      have h15 : ¬ 15 ∣ N + 1 := by omega
      have hd5 : 5 ∣ N + 1 := by omega
      simp only [countKey] at ih ⊢
      simp [h15, hd5]
      omega
    · rw [key_of_number _ h3 h5]
      have h15 : ¬ 15 ∣ N + 1 := by omega
      have hd5 : ¬ 5 ∣ N + 1 := by omega
      simp only [countKey] at ih ⊢
      simp [h15, hd5]
      omega

lemma count_total_classes (N : Nat) :
    countKey "Fizz" (labelKeys N) + countKey "Buzz" (labelKeys N) +
      countKey "FizzBuzz" (labelKeys N) + countKey "Number" (labelKeys N) = N := by
  induction N with
  | zero => rfl
  | succ N ih =>
    rw [labelKeys_succ]
    simp only [countKey_append]
    by_cases h3 : (N + 1) % 3 = 0 <;> by_cases h5 : (N + 1) % 5 = 0
    · rw [key_of_fizzbuzz _ h3 h5]
      simp only [countKey] at ih ⊢
      simp
      omega
    · rw [key_of_fizz _ h3 h5]
      simp only [countKey] at ih ⊢
      simp
      omega
    · rw [key_of_buzz _ h3 h5]
      simp only [countKey] at ih ⊢
      simp
      omega
    · rw [key_of_number _ h3 h5]
      simp only [countKey] at ih ⊢
      simp
      omega

/-- C1: keying each of the 200000 fizzbuzz dataset rows by its label class
(Fizz, Buzz, FizzBuzz, or Number for numeric output) and counting each class
yields the documented histogram: Fizz 53333, Buzz 26667, FizzBuzz 13333,
Number 106667, and the four counts sum to 200000. -/
theorem C1_histogram_counts :
    countKey "Fizz" (labelKeys 200000) = 53333 ∧
    countKey "Buzz" (labelKeys 200000) = 26667 ∧
    countKey "FizzBuzz" (labelKeys 200000) = 13333 ∧
    countKey "Number" (labelKeys 200000) = 106667 ∧
    53333 + 26667 + 13333 + 106667 = 200000 := by
  have hA := count_fizzbuzz_class 200000
  have hB := count_fizz_class 200000
  have hC := count_buzz_class 200000
  have hD := count_total_classes 200000
  have h15 : (200000 : Nat) / 15 = 13333 := by norm_num
  have h3 : (200000 : Nat) / 3 = 66666 := by norm_num
  have h5 : (200000 : Nat) / 5 = 40000 := by norm_num
  rw [h15] at hA hB hC
  rw [h3] at hB
  rw [h5] at hC
  refine ⟨by omega, by omega, hA, by omega, by norm_num⟩

/- ### A model of the external RDD engine -/

/-- Modelled from the spec: an RDD is the external engine's partitioned,
lazily evaluated collection.  A transformation call (map, filter, keyBy,
reduceByKey) only builds a new plan node and performs no computation; the
plan is evaluated when an action (collect, count, reduce, take) runs. -/
inductive RDD : Type → Type 1 where
  | parallelize {α : Type} (l : List α) : RDD α
  | map {α β : Type} (f : α → β) (r : RDD α) : RDD β
  | filter {α : Type} (p : α → Bool) (r : RDD α) : RDD α
  | keyBy {α κ : Type} (k : α → κ) (r : RDD α) : RDD (κ × α)
  | reduceByKey {κ β : Type} [BEq κ] (f : β → β → β) (r : RDD (κ × β)) : RDD (κ × β)

namespace RDD

/-- Combine one key-value pair into an association list, merging with `f`
when the key is already present and appending otherwise.  Also returns how
many times `f` was applied (0 or 1). -/
def upsert {κ β : Type} [BEq κ] (f : β → β → β) :
    List (κ × β) → κ × β → List (κ × β) × Nat
  | [], kv => ([kv], 0)
  | (k, v) :: rest, kv =>
    if k == kv.1 then ((k, f v kv.2) :: rest, 1)
    else
      let res := upsert f rest kv
      ((k, v) :: res.1, res.2)

/-- Group a list of key-value pairs by key (first-occurrence order) and
reduce each group with `f`; counts the applications of `f`. -/
def reduceByKeyList {κ β : Type} [BEq κ] (f : β → β → β) (l : List (κ × β)) :
    List (κ × β) × Nat :=
  l.foldl
    (fun acc kv =>
      let step := upsert f acc.1 kv
      (step.1, acc.2 + step.2))
    ([], 0)

/-- Modelled from the spec: full evaluation of an RDD plan, as performed by
the collect action.  The second component counts how many times a
user-supplied function was applied during the evaluation. -/
def evalCollect : {α : Type} → RDD α → List α × Nat
  | _, .parallelize l => (l, 0)
  | _, .map f r =>
    let res := evalCollect r
    (res.1.map f, res.2 + res.1.length)
  | _, .filter p r =>
    let res := evalCollect r
    (res.1.filter p, res.2 + res.1.length)
  | _, .keyBy k r =>
    let res := evalCollect r
    (res.1.map (fun a => (k a, a)), res.2 + res.1.length)
  | _, @RDD.reduceByKey κ β inst f r =>
    let res := evalCollect r
    let red := @reduceByKeyList κ β inst f res.1
    (red.1, res.2 + red.2)

/-- Modelled from the spec: lazy evaluation of the take action.  Spark only
computes what the requested result needs, so a map above the source is
applied to the taken prefix only; the second component again counts the
applications of user-supplied functions. -/
def evalTake (n : Nat) : {α : Type} → RDD α → List α × Nat
  | _, .parallelize l => (l.take n, 0)
  | _, .map f r =>
    let res := evalTake n r
    (res.1.map f, res.2 + res.1.length)
  | _, .filter p r =>
    let res := evalCollect r
    ((res.1.filter p).take n, res.2 + res.1.length)
  | _, .keyBy k r =>
    let res := evalTake n r
    (res.1.map (fun a => (k a, a)), res.2 + res.1.length)
  | _, @RDD.reduceByKey κ β inst f r =>
    let res := evalCollect r
    let red := @reduceByKeyList κ β inst f res.1
    (red.1.take n, res.2 + red.2)

/-- The collect action: evaluate the plan and return all elements. -/
def collect {α : Type} (r : RDD α) : List α := (evalCollect r).1

/-- The count action. -/
def count {α : Type} (r : RDD α) : Nat := (collect r).length

/-- The take action. -/
def take {α : Type} (n : Nat) (r : RDD α) : List α := (evalTake n r).1

/-- The reduce action: fold the collected elements with a binary function,
as Python 2 reduce does (none on an empty collection). -/
def reduce {α : Type} (f : α → α → α) (r : RDD α) : Option α :=
  match collect r with
  | [] => none
  | x :: xs => some (xs.foldl f x)

end RDD

/- ### Models of the Python 2 builtins used in the notebooks -/

/-- Modelled from the spec: Python 2 builtin filter on a list returns the
list of elements satisfying the predicate. -/
def pyFilter {α : Type} (p : α → Bool) (l : List α) : List α := l.filter p

/-- Modelled from the spec: Python 2 builtin map on a list. -/
def pyMap {α β : Type} (f : α → β) (l : List α) : List β := l.map f

/-- Modelled from the spec: Python builtin len. -/
def pyLen {α : Type} (l : List α) : Nat := l.length

/-- Modelled from the spec: Python builtin sum over a list of integers. -/
def pySum (l : List Nat) : Nat := l.foldl (· + ·) 0

/-- Modelled from the spec: itertools.groupby groups consecutive elements
with the same key into runs, pairing each run with its key. -/
def pyGroupby {α κ : Type} [BEq κ] (key : α → κ) (l : List α) :
    List (κ × List α) :=
  l.foldr
    (fun x acc =>
      match acc with
      | [] => [(key x, [x])]
      | (k, g) :: rest =>
        if key x == k then (k, x :: g) :: rest
        else (key x, [x]) :: (k, g) :: rest)
    []

/-- The in-memory list of the tutorial notebook: range(100). -/
def python_list : List Nat := List.range 100

/-- The RDD of the tutorial notebook: sc.parallelize(range(100)). -/
def spark_rdd : RDD Nat := RDD.parallelize (List.range 100)

/-- From the tutorial notebook: the function mapped over the RDD in the lazy
evaluation demonstration.  The real function also sleeps for half a second,
which is outside the model; its computed value is the square. -/
def time_consuming_function (n : Nat) : Nat := n ^ 2

/-- C2: filtering the integers 0 to 99 for values at most 10 yields exactly
the 11 elements 0 .. 10, and the native list filter and the RDD filter
followed by collect agree on this result. -/
theorem C2_filter_native_vs_rdd :
    pyFilter (fun n => n ≤ 10) python_list = [0, 1, 2, 3, 4, 5, 6, 7, 8, 9, 10] ∧
    RDD.collect (RDD.filter (fun n => n ≤ 10) spark_rdd) =
      [0, 1, 2, 3, 4, 5, 6, 7, 8, 9, 10] ∧
    (pyFilter (fun n => n ≤ 10) python_list).length = 11 ∧
    RDD.collect (RDD.filter (fun n => n ≤ 10) spark_rdd) =
      pyFilter (fun n => n ≤ 10) python_list := by
  decide

set_option maxRecDepth 4000 in
/-- C4: every side-by-side pair of a native list operation and the
corresponding RDD pipeline in the tutorial notebook computes the same
result: the filter for values at most 10, the element count 100, the count
of elements with n % 2 == 0 being 50, the square-after-filter list, take 10
versus the first 10 elements, the total sum 4950, and the key-by n < 50
then sum giving the pairs (True, 1225) and (False, 3725), the last pair in
a possibly different order between the two sides. -/
theorem C4_native_rdd_agreement :
    RDD.collect (RDD.filter (fun n => n ≤ 10) spark_rdd) =
      pyFilter (fun n => n ≤ 10) python_list ∧
    pyLen python_list = 100 ∧ RDD.count spark_rdd = 100 ∧
    pyLen (pyFilter (fun n => n % 2 == 0) python_list) = 50 ∧
    RDD.count (RDD.filter (fun n => n % 2 == 0) spark_rdd) = 50 ∧
    pyMap (fun n => n ^ 2) (pyFilter (fun n => n ≤ 10) python_list) =
      [0, 1, 4, 9, 16, 25, 36, 49, 64, 81, 100] ∧
    RDD.collect (RDD.map (fun n => n ^ 2) (RDD.filter (fun n => n ≤ 10) spark_rdd)) =
      pyMap (fun n => n ^ 2) (pyFilter (fun n => n ≤ 10) python_list) ∧
    RDD.take 10 spark_rdd = python_list.take 10 ∧
    RDD.take 10 spark_rdd = [0, 1, 2, 3, 4, 5, 6, 7, 8, 9] ∧
    pySum python_list = 4950 ∧
    RDD.reduce (· + ·) spark_rdd = some 4950 ∧
    pyMap (fun kv => (kv.1, pySum kv.2)) (pyGroupby (fun n => decide (n < 50)) python_list) =
      [(true, 1225), (false, 3725)] ∧
    (RDD.collect (RDD.reduceByKey (· + ·) (RDD.keyBy (fun n => decide (n < 50)) spark_rdd))).Perm
      [(false, 3725), (true, 1225)] ∧
    (RDD.collect (RDD.reduceByKey (· + ·) (RDD.keyBy (fun n => decide (n < 50)) spark_rdd))).Perm
      (pyMap (fun kv => (kv.1, pySum kv.2)) (pyGroupby (fun n => decide (n < 50)) python_list)) := by
  decide

/-- C6: in the lazy evaluation model, a transformation such as map only
builds a plan node and applies the mapped function zero times; the
evaluation work happens at an action, and the take action of 5 elements
after a map over the 100-element RDD applies the mapped function exactly 5
times (in general min n (length of the source)), while a full evaluation
applies it 100 times. -/
theorem C6_lazy_evaluation :
    (∀ (l : List Nat) (f : Nat → Nat) (n : Nat),
        (RDD.evalTake n (RDD.map f (RDD.parallelize l))).2 = min n l.length) ∧
    (RDD.evalTake 5 (RDD.map time_consuming_function spark_rdd)).2 = 5 ∧
    (RDD.evalTake 5 (RDD.map time_consuming_function spark_rdd)).1 = [0, 1, 4, 9, 16] ∧
    (RDD.evalCollect (RDD.map time_consuming_function spark_rdd)).2 = 100 ∧
    (RDD.evalCollect (RDD.map time_consuming_function spark_rdd)).1.length = 100 := by
  refine ⟨?_, by decide, by decide, by decide, by decide⟩
  intro l f n
  simp [RDD.evalTake, List.length_take]

/-- C9: the cell headed "Count the odd numbers in the list" actually
filters range(100) with the even predicate n % 2 == 0; the printed result
50 nevertheless agrees with the heading because among the integers 0 to 99
the even count and the odd count are both 50. -/
theorem C9_even_filter_agrees_with_odd_heading :
    pyLen (pyFilter (fun n => n % 2 == 0) python_list) = 50 ∧
    pyLen (pyFilter (fun n => n % 2 == 1) python_list) = 50 ∧
    pyLen (pyFilter (fun n => n % 2 == 0) python_list) =
      pyLen (pyFilter (fun n => n % 2 == 1) python_list) ∧
    RDD.count (RDD.filter (fun n => n % 2 == 0) spark_rdd) = 50 := by
  decide

/-- C7: the label paired with each integer of the fizzbuzz dataset follows
the FizzBuzz rule: "FizzBuzz" exactly when divisible by 3 and 5, "Fizz"
exactly when divisible by 3 only, "Buzz" exactly when divisible by 5 only,
and the decimal representation of the number otherwise; the first 20 rows
are exactly the ones the solution notebook displays. -/
theorem C7_labels_follow_rule :
    (∀ n : Nat,
      (fizzbuzz n = "FizzBuzz" ↔ n % 3 = 0 ∧ n % 5 = 0) ∧
      (fizzbuzz n = "Fizz" ↔ n % 3 = 0 ∧ n % 5 ≠ 0) ∧
      (fizzbuzz n = "Buzz" ↔ n % 3 ≠ 0 ∧ n % 5 = 0) ∧
      (n % 3 ≠ 0 ∧ n % 5 ≠ 0 → fizzbuzz n = Nat.repr n)) ∧
    fizzbuzzDataset 20 =
      [(1, "1"), (2, "2"), (3, "Fizz"), (4, "4"), (5, "Buzz"), (6, "Fizz"),
       (7, "7"), (8, "8"), (9, "Fizz"), (10, "Buzz"), (11, "11"), (12, "Fizz"),
       (13, "13"), (14, "14"), (15, "FizzBuzz"), (16, "16"), (17, "17"),
       (18, "Fizz"), (19, "19"), (20, "Buzz")] := by
  constructor
  · intro n
    by_cases h3 : n % 3 = 0 <;> by_cases h5 : n % 5 = 0
    · have hfb : fizzbuzz n = "FizzBuzz" := by simp [fizzbuzz, h3, h5]
      refine ⟨?_, ?_, ?_, ?_⟩ <;> simp [hfb, h3, h5]
    · have hfb : fizzbuzz n = "Fizz" := by simp [fizzbuzz, h3, h5]
      refine ⟨?_, ?_, ?_, ?_⟩ <;> simp [hfb, h3, h5]
    · have hfb : fizzbuzz n = "Buzz" := by simp [fizzbuzz, h3, h5]
      refine ⟨?_, ?_, ?_, ?_⟩ <;> simp [hfb, h3, h5]
    · have hfb : fizzbuzz n = Nat.repr n := by simp [fizzbuzz, h3, h5]
      refine ⟨?_, ?_, ?_, ?_⟩ <;>
        simp [hfb, h3, h5, repr_ne_fizz n, repr_ne_buzz n, repr_ne_fizzbuzz n]
  · decide

/-- C7 witness: the rule at the concrete row 7, whose label is the decimal
representation because 7 is divisible by neither 3 nor 5. -/
theorem C7_labels_follow_rule_witness : fizzbuzz 7 = Nat.repr 7 :=
  (C7_labels_follow_rule.1 7).2.2.2 (by decide)

/- ### Models of the Python string operations used by the parse pipeline -/

/-- Python exceptions that the notebook code can surface. -/
inductive PyError where
  | valueError : PyError
  | nameError : PyError
deriving DecidableEq

instance exceptDecEq {ε α : Type} [DecidableEq ε] [DecidableEq α] :
    DecidableEq (Except ε α) := fun a b =>
  match a, b with
  | .ok x, .ok y =>
    if h : x = y then isTrue (by rw [h])
    else isFalse (fun hc => h (by injection hc))
  | .error x, .error y =>
    if h : x = y then isTrue (by rw [h])
    else isFalse (fun hc => h (by injection hc))
  | .ok _, .error _ => isFalse (fun hc => Except.noConfusion hc)
  | .error _, .ok _ => isFalse (fun hc => Except.noConfusion hc)

/-- Whether an Except value is a normal result rather than an exception. -/
def isOkE {ε α : Type} : Except ε α → Bool
  | .ok _ => true
  | .error _ => false

/-- Modelled from the spec: the whitespace characters removed by the Python
str.strip method. -/
def pyIsSpace (c : Char) : Bool :=
  c == ' ' || c == '\t' || c == '\n' || c == '\r' || c == '\x0b' || c == '\x0c'

/-- Modelled from the spec: Python str.strip removes leading and trailing
whitespace. -/
def pyStrip (s : List Char) : List Char :=
  ((s.dropWhile pyIsSpace).reverse.dropWhile pyIsSpace).reverse

/-- Modelled from the spec: Python str.split with separator "," cuts the
string at every comma; splitting an empty string gives one empty field. -/
def splitOnComma (s : List Char) : List (List Char) :=
  s.foldr
    (fun c acc =>
      match acc with
      | [] => [[c]]
      | g :: gs => if c == ',' then [] :: g :: gs else (c :: g) :: gs)
    [[]]

/-- A nonempty all-digit character list parses to the natural number it
denotes; anything else is a parse failure. -/
def parseNatDigits (l : List Char) : Option Nat :=
  if l.isEmpty then none
  else if l.all Char.isDigit then
    some (l.foldl (fun a c => a * 10 + (c.toNat - 48)) 0)
  else none

/-- Modelled from the spec: Python int() applied to a string: whitespace is
stripped, an optional sign is followed by digits, and any other input
raises ValueError (here: none). -/
def pyInt (s : List Char) : Option Int :=
  match pyStrip s with
  | [] => none
  | c :: rest =>
    if c == '-' then (parseNatDigits rest).map (fun v => -(v : Int))
    else if c == '+' then (parseNatDigits rest).map (fun v => (v : Int))
    else (parseNatDigits (c :: rest)).map (fun v => (v : Int))

/-- Python int() in exception style: a failed parse is a ValueError. -/
def intE (s : List Char) : Except PyError Int :=
  match pyInt s with
  | some v => .ok v
  | none => .error .valueError

/-- Modelled from the spec: one line of fizzbuzz.csv is the decimal
representation of the row number, a comma, and the row label. -/
def csvLine (n : Nat) : List Char :=
  (Nat.repr n).toList ++ ',' :: (fizzbuzz n).toList

/-- From 04-Machine-Learning-example.ipynb: the parse applied to each line
of the CSV: strip, split on the comma, unpack into exactly two fields and
convert the first to an int.  A wrong field count or a failing conversion
raises (here: an error result); no handler is installed in the pipeline. -/
def parseRow (line : List Char) : Except PyError (Int × List Char) :=
  match splitOnComma (pyStrip line) with
  | [nf, fb] =>
    match pyInt nf with
    | some v => .ok (v, fb)
    | none => .error .valueError
  | _ => .error .valueError

/-- From 04-Machine-Learning-example.ipynb: is_int converts its argument
with int() inside a try block and catches every exception, returning False
instead of propagating the failure. -/
def is_int (x : List Char) : Bool :=
  match intE x with
  | .ok _ => true
  | .error _ => false

/- ### Supporting lemmas for the parse pipeline -/

lemma dropWhile_of_none (p : α → Bool) (l : List α)
    (h : ∀ c ∈ l, p c = false) : l.dropWhile p = l := by
  cases l with
  | nil => rfl
  | cons x xs => simp [List.dropWhile, h x (List.mem_cons_self x xs)]

lemma pyStrip_of_no_space (l : List Char)
    (h : ∀ c ∈ l, pyIsSpace c = false) : pyStrip l = l := by
  unfold pyStrip
  rw [dropWhile_of_none _ _ h]
  rw [dropWhile_of_none _ l.reverse (by intro c hc; exact h c (List.mem_reverse.mp hc))]
  exact List.reverse_reverse l

lemma isDigit_not_space (c : Char) (h : c.isDigit = true) : pyIsSpace c = false := by
  cases hs : pyIsSpace c with
  | false => rfl
  | true =>
    exfalso
    simp only [pyIsSpace, Bool.or_eq_true, beq_iff_eq] at hs
    rcases hs with ((((rfl | rfl) | rfl) | rfl) | rfl) | rfl <;>
      exact absurd h (by decide)

lemma isDigit_not_comma (c : Char) (h : c.isDigit = true) : (c == ',') = false := by
  cases hc : c == ',' with
  | false => rfl
  | true =>
    have : c = ',' := by simpa using hc
    subst this
    exact absurd h (by decide)

lemma splitOnComma_ne_nil (l : List Char) : splitOnComma l ≠ [] := by
  induction l with
  | nil => simp [splitOnComma]
  | cons c l ih =>
    show (match splitOnComma l with
      | [] => [[c]]
      | g :: gs => if c == ',' then [] :: g :: gs else (c :: g) :: gs) ≠ []
    cases h : splitOnComma l with
    | nil => simp
    | cons g gs => by_cases hc : c == ',' <;> simp [hc]

lemma splitOnComma_cons (c : Char) (l : List Char) :
    splitOnComma (c :: l) =
      match splitOnComma l with
      | [] => [[c]]
      | g :: gs => if c == ',' then [] :: g :: gs else (c :: g) :: gs := rfl

lemma splitOnComma_of_no_comma (l : List Char)
    (h : ∀ c ∈ l, (c == ',') = false) : splitOnComma l = [l] := by
  induction l with
  | nil => rfl
  | cons c l ih =>
    rw [splitOnComma_cons, ih (fun d hd => h d (List.mem_cons_of_mem c hd))]
    simp [h c (List.mem_cons_self c l)]

lemma splitOnComma_append (a b : List Char)
    (h : ∀ c ∈ a, (c == ',') = false) :
    splitOnComma (a ++ ',' :: b) = a :: splitOnComma b := by
  induction a with
  | nil =>
    rw [List.nil_append, splitOnComma_cons]
    cases hb : splitOnComma b with
    | nil => exact absurd hb (splitOnComma_ne_nil b)
    | cons g gs => simp
  | cons c a ih =>
    rw [List.cons_append, splitOnComma_cons,
      ih (fun d hd => h d (List.mem_cons_of_mem c hd))]
    simp [h c (List.mem_cons_self c a)]

lemma isDigit_beq_false (c d : Char) (h : c.isDigit = true)
    (hd : d.isDigit = false) : (c == d) = false := by
  cases hc : c == d with
  | false => rfl
  | true =>
    have hcd : c = d := by simpa using hc
    subst hcd
    exact Bool.noConfusion (h.symm.trans hd)

lemma toDigitsCore_length (fuel : Nat) :
    ∀ (n : Nat) (ds : List Char), ds.length ≤ (Nat.toDigitsCore 10 fuel n ds).length := by
  induction fuel with
  | zero => intro n ds; simp [Nat.toDigitsCore]
  | succ fuel ih =>
    intro n ds
    simp only [Nat.toDigitsCore]
    split
    · simp
    · exact le_trans (Nat.le_succ _) (ih (n / 10) (Nat.digitChar (n % 10) :: ds))

lemma repr_toList_ne_nil (n : Nat) : (Nat.repr n).toList ≠ [] := by
  have h : (Nat.repr n).toList = Nat.toDigitsCore 10 (n + 1) n [] := rfl
  rw [h]
  simp only [Nat.toDigitsCore]
  split
  · simp
  · intro hcontra
    have hlen := toDigitsCore_length n (n / 10) [Nat.digitChar (n % 10)]
    rw [hcontra] at hlen
    simp at hlen

lemma parseNatDigits_isSome (l : List Char) (hne : l ≠ [])
    (hdig : ∀ c ∈ l, c.isDigit = true) : (parseNatDigits l).isSome = true := by
  cases l with
  | nil => exact absurd rfl hne
  | cons c rest =>
    have h2 : (c :: rest).all Char.isDigit = true := List.all_eq_true.mpr hdig
    simp [parseNatDigits, h2]

lemma pyInt_digits_isSome (l : List Char) (hne : l ≠ [])
    (hdig : ∀ c ∈ l, c.isDigit = true) : (pyInt l).isSome = true := by
  have hstrip : pyStrip l = l :=
    pyStrip_of_no_space l (fun c hc => isDigit_not_space c (hdig c hc))
  unfold pyInt
  rw [hstrip]
  cases l with
  | nil => exact absurd rfl hne
  | cons c rest =>
    have hc := hdig c (List.mem_cons_self c rest)
    have hp := parseNatDigits_isSome (c :: rest) (by simp) hdig
    rw [Option.isSome_iff_exists] at hp
    obtain ⟨v, hv⟩ := hp
    simp [isDigit_beq_false c '-' hc (by decide),
      isDigit_beq_false c '+' hc (by decide), hv]

lemma repr_no_comma (n : Nat) :
    ∀ c ∈ (Nat.repr n).toList, (c == ',') = false :=
  fun c hc => isDigit_beq_false c ',' (repr_all_digits n c hc) (by decide)

lemma fizzbuzz_no_comma (n : Nat) :
    ∀ c ∈ (fizzbuzz n).toList, (c == ',') = false := by
  by_cases h3 : n % 3 = 0 <;> by_cases h5 : n % 5 = 0
  · have hfb : fizzbuzz n = "FizzBuzz" := by simp [fizzbuzz, h3, h5]
    rw [hfb]; decide
  · have hfb : fizzbuzz n = "Fizz" := by simp [fizzbuzz, h3, h5]
    rw [hfb]; decide
  · have hfb : fizzbuzz n = "Buzz" := by simp [fizzbuzz, h3, h5]
    rw [hfb]; decide
  · have hfb : fizzbuzz n = Nat.repr n := by simp [fizzbuzz, h3, h5]
    rw [hfb]; exact repr_no_comma n

lemma fizzbuzz_no_space (n : Nat) :
    ∀ c ∈ (fizzbuzz n).toList, pyIsSpace c = false := by
  by_cases h3 : n % 3 = 0 <;> by_cases h5 : n % 5 = 0
  · have hfb : fizzbuzz n = "FizzBuzz" := by simp [fizzbuzz, h3, h5]
    rw [hfb]; decide
  · have hfb : fizzbuzz n = "Fizz" := by simp [fizzbuzz, h3, h5]
    rw [hfb]; decide
  · have hfb : fizzbuzz n = "Buzz" := by simp [fizzbuzz, h3, h5]
    rw [hfb]; decide
  · have hfb : fizzbuzz n = Nat.repr n := by simp [fizzbuzz, h3, h5]
    rw [hfb]
    exact fun c hc => isDigit_not_space c (repr_all_digits n c hc)

lemma csvLine_no_space (n : Nat) : ∀ c ∈ csvLine n, pyIsSpace c = false := by
  intro c hc
  unfold csvLine at hc
  rcases List.mem_append.mp hc with h | h
  · exact isDigit_not_space c (repr_all_digits n c h)
  · rcases List.mem_cons.mp h with rfl | h
    · decide
    · exact fizzbuzz_no_space n c h

lemma splitOnComma_csvLine (n : Nat) :
    splitOnComma (csvLine n) = [(Nat.repr n).toList, (fizzbuzz n).toList] := by
  unfold csvLine
  rw [splitOnComma_append _ _ (repr_no_comma n),
    splitOnComma_of_no_comma _ (fizzbuzz_no_comma n)]

/-- C3: for every row of the fizzbuzz CSV data, stripping the line and
splitting it on the comma produces exactly two fields, of which the first
parses as an integer: the parse pipeline of the machine learning notebook
succeeds on every line of the dataset without raising. -/
theorem C3_every_row_parses :
    ∀ n : Nat,
      pyStrip (csvLine (n + 1)) = csvLine (n + 1) ∧
      splitOnComma (csvLine (n + 1)) =
        [(Nat.repr (n + 1)).toList, (fizzbuzz (n + 1)).toList] ∧
      (splitOnComma (csvLine (n + 1))).length = 2 ∧
      isOkE (parseRow (csvLine (n + 1))) = true := by
  intro n
  have hstrip := pyStrip_of_no_space _ (csvLine_no_space (n + 1))
  have hsplit := splitOnComma_csvLine (n + 1)
  refine ⟨hstrip, hsplit, by rw [hsplit]; rfl, ?_⟩
  have hint := pyInt_digits_isSome ((Nat.repr (n + 1)).toList)
    (repr_toList_ne_nil (n + 1)) (repr_all_digits (n + 1))
  rw [Option.isSome_iff_exists] at hint
  obtain ⟨v, hv⟩ := hint
  simp only [String.toList] at hv
  unfold parseRow
  rw [hstrip, hsplit]
  simp [hv, isOkE, String.toList]

/-- C5 counterexample: the claim that no operation defined in the notebooks
catches an exception, and that every parse failure propagates to the
session, is false at the input "Fizz": the int conversion fails with a
ValueError, yet is_int returns the normal value False instead of letting
the failure propagate, because its try block catches every exception. -/
theorem C5_counterexample_is_int_catches :
    intE ("Fizz".toList) = Except.error PyError.valueError ∧
    is_int ("Fizz".toList) = false ∧
    isOkE (intE ("Fizz".toList)) = false := by
  decide

/-- C5 amended: the only exception handling the notebooks define is the
helper is_int, which catches the failure of int() and returns False; the
CSV parse pipeline itself installs no handler, so a parse failure on a
malformed row propagates out of it. -/
theorem C5_amended_only_is_int_catches :
    (∀ (line nf fb : List Char),
        splitOnComma (pyStrip line) = [nf, fb] → pyInt nf = none →
        parseRow line = Except.error PyError.valueError) ∧
    is_int ("Fizz".toList) = false ∧
    is_int ("17".toList) = true := by
  refine ⟨?_, by decide, by decide⟩
  intro line nf fb h1 h2
  unfold parseRow
  rw [h1]
  simp [h2]

/-- C5 witness: the amended propagation statement at the malformed concrete
row "abc,def". -/
theorem C5_amended_witness :
    parseRow ("abc,def".toList) = Except.error PyError.valueError :=
  C5_amended_only_is_int_catches.1 ("abc,def".toList) ("abc".toList)
    ("def".toList) (by decide) (by decide)

/- ### The combined prediction function of the machine learning notebook -/

/-- The result of the combined predictor: a textual label from the classes
dictionary or a numeric value from the regression model. -/
inductive PredictOut where
  | label : String → PredictOut
  | num : Int → PredictOut
deriving DecidableEq

/-- Modelled from the spec: the two trained models come from the external
ML library and the notebook only calls their predict methods, so they are
abstract parameters.  The classifier receives the feature triple
(n, n % 3 == 0, n % 5 == 0) and yields a class code; the regression model
maps its feature list to a number. -/
structure Models where
  classify : Int × Bool × Bool → Int
  regress : List Int → Int

/-- From 04-Machine-Learning-example.ipynb: the classes.get(code, default)
dictionary lookup inside predict, translating class codes back to labels
and falling through to the regression prediction otherwise. -/
def classesGet (code : Int) (default : PredictOut) : PredictOut :=
  if code == 1 then PredictOut.label "Fizz"
  else if code == 2 then PredictOut.label "Buzz"
  else if code == 3 then PredictOut.label "FizzBuzz"
  else default

/-- From 04-Machine-Learning-example.ipynb: predict builds the classifier
features from its parameter n but the regression features from the global
name x (the line regression_features = [x]); an unbound global x makes the
call raise NameError before any model runs.  The global binding of x is an
explicit Option parameter of the model. -/
def predict (m : Models) (globalX : Option Int) (n : Int) :
    Except PyError PredictOut :=
  let classification_features := (n, n % 3 == 0, n % 5 == 0)
  match globalX with
  | none => Except.error PyError.nameError
  | some x =>
    let regression_features := [x]
    Except.ok (classesGet (m.classify classification_features)
      (PredictOut.num (m.regress regression_features)))

/-- From 04-Machine-Learning-example.ipynb: the final cell
[ predict(x) for x in range(1,21) ].  Modelled from the spec: a Python 2
list comprehension leaks its variable into the enclosing scope, so during
each call the global x holds the same value as the argument. -/
def predictCallSite (m : Models) : List (Except PyError PredictOut) :=
  (List.range 20).map
    (fun i => predict m (some (Int.ofNat (i + 1))) (Int.ofNat (i + 1)))

/-- A concrete model instantiation that exposes the data flow from the
global x into the numeric prediction: the classifier always answers with a
non-label code and the regression returns its first feature. -/
def demoModels : Models :=
  ⟨fun _ => 0, fun l => l.headD 0⟩

/-- C8: predict reads the global name x instead of its parameter n for the
regression features: with no global x bound every call raises NameError;
with a bound global x the numeric prediction is computed from x, so two
calls with the same argument but different globals disagree and the output
is not determined by the argument alone; the list comprehension call site
works only because the leaked comprehension variable makes the global x
equal to the argument, and then every call succeeds. -/
theorem C8_predict_depends_on_global_x :
    (∀ (m : Models) (n : Int), predict m none n = Except.error PyError.nameError) ∧
    (∀ (m : Models) (x n : Int),
        predict m (some x) n =
          Except.ok (classesGet (m.classify (n, n % 3 == 0, n % 5 == 0))
            (PredictOut.num (m.regress [x])))) ∧
    predict demoModels (some 7) 3 ≠ predict demoModels (some 4) 3 ∧
    (∀ m : Models, (predictCallSite m).all isOkE = true) := by
  refine ⟨fun m n => rfl, fun m x n => rfl, by decide, ?_⟩
  intro m
  simp only [predictCallSite, List.all_eq_true, List.mem_map]
  rintro r ⟨i, hi, rfl⟩
  rfl

/- ### The classifier training cell of the machine learning notebook -/

/-- From 04-Machine-Learning-example.ipynb: the global names bound by the
notebook in execution order: sc from the environment, the imported library
names, and the assignment and def targets of every cell (together with the
x leaked from the final list comprehension).  The trained classifier is
bound to classification_model; no cell binds classifier_model. -/
def mlNotebookBoundNames : List String :=
  ["sc", "pd", "sns", "LabeledPoint", "RandomForest", "RandomForestModel",
   "LinearRegressionWithSGD", "RidgeRegressionWithSGD", "rdd", "is_int",
   "not_numbers", "not_numbers_hist", "not_number_frame", "numbers",
   "numbers_frame", "fizzbuzz_type", "classification_points",
   "classification_points_train", "classification_points_test",
   "classification_model", "regression_points", "regression_points_train",
   "regression_points_test", "regression_model", "MSE", "predict", "x"]

/-- Modelled from the spec: evaluating a bare name in the interactive
session raises NameError when the name is unbound. -/
def evalName (env : List String) (name : String) : Except PyError Unit :=
  if env.contains name then Except.ok () else Except.error PyError.nameError

/-- C10: the classifier-training cell ends by evaluating the bare name
classifier_model, which no cell of the notebook binds (the trained model is
bound to classification_model), so after training succeeds the final
expression of the cell raises a NameError on every run. -/
theorem C10_classifier_model_name_error :
    mlNotebookBoundNames.contains "classification_model" = true ∧
    mlNotebookBoundNames.contains "classifier_model" = false ∧
    evalName mlNotebookBoundNames "classifier_model" =
      Except.error PyError.nameError := by
  decide

end Workshop
